import Mathlib

/-!
Verification of the SetWindowTitle plugin (`set_window_title.py`).

The development shallowly embeds the plugin's title-computation and
window-rename pipeline:

* `pyReplace` / `pyFormat` model the Python `str.replace` and `str.format`
  primitives used by the template renderer.  A replacement field is parsed
  as `arg_name[.attr | [index]]*[!conversion][:format_spec]`; the argument
  name is looked up among the keyword arguments `path` / `project` first
  (`KeyError` otherwise, `IndexError` for an empty name), then integer
  indexing, the `!s`/`!r`/`!a` conversions and the string format-spec
  mini-language are applied.  Outside the model and mapped to an error:
  attribute access (its formatted output embeds a machine address) and
  nested replacement fields inside a spec; non-ASCII text under `!r` is
  rendered as `!a` renders it.  Errors (`KeyError`, `IndexError`,
  `TypeError`, `ValueError`, `UnboundLocalError`) are modelled by
  `Option.none`.
* `OsPath` packages the platform-dependent `os.path` primitives
  (`splitdrive`, `relpath`, `basename`).  The plugin runs on whichever
  platform hosts the editor, so theorems quantify over the `OsPath`
  instance; concrete executable instances are provided for evaluation.
* `getDisplayedPath`, `getOfficialTitle`, `renderTemplate`, `getNewTitle`
  embed `SetWindowTitle._get_displayed_path`, `get_official_title`,
  the template-processing part of `get_new_title`, and `get_new_title`.
* `PState` / `handleEvent` embed the readiness state machine of
  `SetWindowTitle.run` and the event callbacks.
* `RenameState` / `renameWindowWin` embed the Windows branch of
  `SetWindowTitle.rename_window` together with its handle cache.
* `windowSetTitle` / `windowGetTitle` embed the `Window.title` setter and
  getter (the ctypes layer over `SetWindowTextW` / `GetWindowTextW`), with
  the native title buffer as a list of 16-bit code units; `SetWindowTextW`
  receives a NUL-terminated wide string, so the stored text is the buffer
  up to the first zero unit.
-/

/-- Python `s.replace(pat, rep)` on an exploded string, for a nonempty
pattern `p :: ps`: replace every non-overlapping occurrence, left to
right. -/
def pyReplaceAux (p : Char) (ps rep : List Char) : List Char → List Char
  | [] => []
  | c :: rest =>
    if (p :: ps).isPrefixOf (c :: rest) then
      rep ++ pyReplaceAux p ps rep (rest.drop ps.length)
    else
      c :: pyReplaceAux p ps rep rest
termination_by l => l.length
decreasing_by
  · simp only [List.length_drop, List.length_cons]; omega
  · simp only [List.length_cons]; omega

/-- Python `s.replace(pat, rep)`.  An empty pattern inserts `rep` before
every character and once at the end (CPython behaviour). -/
def pyReplace (s pat rep : String) : String :=
  match pat.data with
  | [] => ⟨rep.data ++ (s.data.flatMap fun c => c :: rep.data)⟩
  | p :: ps => ⟨pyReplaceAux p ps rep.data s.data⟩

/-- Python `sub in s` (substring test). -/
def pyContains (s sub : String) : Bool :=
  pyContainsAux sub.data s.data
where
  pyContainsAux (sub : List Char) : List Char → Bool
    | [] => sub.isEmpty
    | c :: rest => sub.isPrefixOf (c :: rest) || pyContainsAux sub rest

/-- Digits of a replacement-field number read as a decimal numeral. -/
def digitsToNat (l : List Char) : Nat :=
  l.foldl (fun n c => n * 10 + (c.toNat - 48)) 0

/-- The argument name of a `str.format` replacement field: the field text
before any accessor (`.`, `[`), conversion (`!`) or format spec (`:`).
`format` looks this name up among its arguments before touching the rest
of the field, so an unknown argument name errors whatever follows. -/
def pyArgName (field : List Char) : List Char :=
  (field.takeWhile fun c => c ≠ '!' ∧ c ≠ ':').takeWhile
    fun c => c ≠ '.' ∧ c ≠ '['

/-- String indexing `value[key]` inside a replacement field: a nonempty
all-digit key selects one character (`IndexError` when out of range); any
other key is a string key, a `TypeError` on `str`. -/
def pyApplyIndex (value key : List Char) : Option (List Char) :=
  if key ≠ [] ∧ key.all (fun c => c.isDigit) then
    match value[digitsToNat key]? with
    | some c => some [c]
    | none => none
  else none

mutual

/-- Applies a chain of `[index]` accessors to a string value.  Attribute
access (`.attr`) is mapped to an error: every `str` attribute is a method,
which `format` would render as an address-dependent `<built-in method ...>`
repr, outside this deterministic model (and no theorem quantifies over
fields containing `.`). -/
def pyApplyAccessors (value : List Char) : List Char → Option (List Char)
  | [] => some value
  | c :: rest => if c = '[' then pyIndexScan value [] rest else none
termination_by l => l.length

/-- Scans one bracketed index key up to `]`, then continues the accessor
chain. -/
def pyIndexScan (value key : List Char) : List Char → Option (List Char)
  | [] => none
  | c :: rest =>
    if c = ']' then
      match pyApplyIndex value key with
      | some v => pyApplyAccessors v rest
      | none => none
    else pyIndexScan value (key ++ [c]) rest
termination_by l => l.length

end

/-- Splits the part of a field after the name into conversion and format
spec: nothing, `!c` (with `c` one of `s`, `r`, `a`, else a `ValueError`),
`!c:spec`, or `:spec`; a bare `!` at the end is a `ValueError`. -/
def pyParseConvSpec : List Char → Option (Option Char × Option (List Char))
  | [] => some (none, none)
  | '!' :: rest =>
    match rest with
    | c :: rest2 =>
      if c = 's' ∨ c = 'r' ∨ c = 'a' then
        match rest2 with
        | [] => some (some c, none)
        | ':' :: sp => some (some c, some sp)
        | _ => none
      else none
    | [] => none
  | ':' :: sp => some (none, some sp)
  | _ => none

/-- Hexadecimal digit characters used by repr escapes. -/
def hexDigitChar (n : Nat) : Char :=
  Char.ofNat (if n < 10 then 48 + n else 87 + n)

/-- The single-quote character (written by code point to keep the source
free of quote-in-literal puzzles). -/
def squote : Char := Char.ofNat 39

/-- The double-quote character. -/
def dquote : Char := Char.ofNat 34

/-- `\xXX` / `\uXXXX` / `\UXXXXXXXX` escape of one character. -/
def hexEscape (c : Char) : List Char :=
  let n := c.toNat
  if n < 0x100 then ['\\', 'x', hexDigitChar (n / 16), hexDigitChar (n % 16)]
  else if n < 0x10000 then
    ['\\', 'u', hexDigitChar (n / 4096), hexDigitChar (n / 256 % 16),
      hexDigitChar (n / 16 % 16), hexDigitChar (n % 16)]
  else
    ['\\', 'U', hexDigitChar (n / 0x10000000 % 16),
      hexDigitChar (n / 0x1000000 % 16), hexDigitChar (n / 0x100000 % 16),
      hexDigitChar (n / 0x10000 % 16), hexDigitChar (n / 4096 % 16),
      hexDigitChar (n / 256 % 16), hexDigitChar (n / 16 % 16),
      hexDigitChar (n % 16)]

/-- One character of a repr'd string under quote `q`: backslash, the quote
and tab/newline/return get two-character escapes, other ASCII control
characters and `0x7f` a hex escape, printable ASCII stays.  Non-ASCII is
hex-escaped the way `ascii()` does — exact for the `!a` conversion;
CPython's `!r` keeps printable non-ASCII verbatim (a Unicode-table
judgement) and this model renders it as `!a` instead; no theorem depends
on repr'd non-ASCII text. -/
def pyReprEscapeChar (q c : Char) : List Char :=
  if c = '\\' then ['\\', '\\']
  else if c = q then ['\\', q]
  else if c = '\t' then ['\\', 't']
  else if c = '\n' then ['\\', 'n']
  else if c = '\r' then ['\\', 'r']
  else if c.toNat < 0x20 ∨ 0x7f ≤ c.toNat then hexEscape c
  else [c]

/-- `repr` of a string: single quotes, or double quotes when the text
holds a single quote but no double quote. -/
def pyReprStr (l : List Char) : List Char :=
  let q := if l.contains squote ∧ ¬ l.contains dquote then dquote else squote
  q :: l.flatMap (pyReprEscapeChar q) ++ [q]

/-- The fill/alignment prefix of a format spec: `<fill><align>` when the
second character is an alignment character, else a bare `<align>`. -/
def pyParseAlign : List Char → Option Char × Option Char × List Char
  | a :: b :: rest =>
    if b = '<' ∨ b = '>' ∨ b = '^' ∨ b = '=' then (some a, some b, rest)
    else if a = '<' ∨ a = '>' ∨ a = '^' ∨ a = '=' then (none, some a, b :: rest)
    else (none, none, a :: b :: rest)
  | [a] =>
    if a = '<' ∨ a = '>' ∨ a = '^' ∨ a = '=' then (none, some a, [])
    else (none, none, [a])
  | [] => (none, none, [])

/-- Pads / truncates the value once the spec is parsed: the type must be
`s` or absent, `=` alignment is a `ValueError` for strings, a leading zero
defaults the fill to `0`, precision truncates, width pads (`<` default,
`^` puts the extra fill on the right). -/
def pyFinishSpec (value : List Char) (fill align : Option Char)
    (zeroFlag : Bool) (widthD : List Char) (prec : Option Nat)
    (rest : List Char) : Option (List Char) :=
  let typeOk := match rest with
    | [] => true
    | ['s'] => true
    | _ => false
  if typeOk = false then none
  else if align = some '=' then none
  else
    let fillc := fill.getD (if zeroFlag then '0' else ' ')
    let alignc := align.getD '<'
    let v := match prec with
      | some p => value.take p
      | none => value
    let w := digitsToNat widthD
    let pad := w - v.length
    some (if alignc = '>' then List.replicate pad fillc ++ v
      else if alignc = '^' then
        List.replicate (pad / 2) fillc ++ v
          ++ List.replicate (pad - pad / 2) fillc
      else v ++ List.replicate pad fillc)

/-- Applies a format spec to a string value (`str.__format__`): sign,
alternate-form (`#`) and grouping (`,`, `_`) options are `ValueError`s for
strings.  Nested replacement fields inside a spec (`\x7bpath:\x7bw\x7d\x7d`)
are not modelled — the surrounding scanner ends the field at the first
closing brace. -/
def pyApplySpecStr (value spec : List Char) : Option (List Char) :=
  let fa := pyParseAlign spec
  let r1 := fa.2.2
  let signErr : Bool := match r1 with
    | c :: _ => c == '+' || c == '-' || c == ' ' || c == '#'
    | [] => false
  if signErr then none
  else
    let zeroFlag : Bool := match r1 with
      | '0' :: _ => true
      | _ => false
    let r2 := if zeroFlag then r1.tail else r1
    let widthD := r2.takeWhile fun c => c.isDigit
    let r3 := r2.drop widthD.length
    let groupErr : Bool := match r3 with
      | c :: _ => c == ',' || c == '_'
      | [] => false
    if groupErr then none
    else
      match r3 with
      | '.' :: r4 =>
        let precD := r4.takeWhile fun c => c.isDigit
        if precD = [] then none
        else pyFinishSpec value fa.1 fa.2.1 zeroFlag widthD
          (some (digitsToNat precD)) (r4.drop precD.length)
      | _ => pyFinishSpec value fa.1 fa.2.1 zeroFlag widthD none r3

/-- Substitutes one replacement field (the text between the braces), of
shape `arg_name[.attr | [index]]*[!conversion][:format_spec]`:
`format` first looks the argument name up among its keyword arguments
`path` / `project` (`KeyError` for any other name, `IndexError` for the
empty name, as no positional arguments are passed), then applies the
accessors, the conversion and the format spec. -/
def pyFormatSubst (path project field : List Char) : Option (List Char) :=
  let name := field.takeWhile fun c => c ≠ '!' ∧ c ≠ ':'
  let argName := pyArgName field
  (if argName = ("path" : String).data then some path
   else if argName = ("project" : String).data then some project
   else none).bind fun value0 =>
  (pyApplyAccessors value0 (name.drop argName.length)).bind fun value1 =>
  (pyParseConvSpec (field.drop name.length)).bind fun cs =>
  let value2 := match cs.1 with
    | some c => if c = 's' then value1 else pyReprStr value1
    | none => value1
  match cs.2 with
  | some sp => pyApplySpecStr value2 sp
  | none => some value2

mutual

/-- Main scanning loop of the `str.format` model: doubled braces are
literal braces, a lone closing brace or an unclosed opening brace is a
`ValueError`. -/
def pyFormatAux (path project : List Char) : List Char → Option (List Char)
  | [] => some []
  | c :: rest =>
    if c = '{' then
      match rest with
      | [] => none
      | c2 :: rest2 =>
        if c2 = '{' then (fun t => '{' :: t) <$> pyFormatAux path project rest2
        else pyFormatField path project [] (c2 :: rest2)
    else if c = '}' then
      match rest with
      | [] => none
      | c2 :: rest2 =>
        if c2 = '}' then (fun t => '}' :: t) <$> pyFormatAux path project rest2
        else none
    else (fun t => c :: t) <$> pyFormatAux path project rest
termination_by l => l.length

/-- Scans the replacement field between an opening and a closing brace
(`acc` holds the field characters read so far), then substitutes it.  A
nested brace inside a format spec is not modelled: the field ends at the
first closing brace. -/
def pyFormatField (path project acc : List Char) : List Char → Option (List Char)
  | [] => none
  | c :: rest =>
    if c = '}' then
      match pyFormatSubst path project acc with
      | some v => (fun t => v ++ t) <$> pyFormatAux path project rest
      | none => none
    else pyFormatField path project (acc ++ [c]) rest
termination_by l => l.length

end

/-- Python `template.format(path=path, project=project)`. -/
def pyFormat (template path project : String) : Option String :=
  (fun l => (⟨l⟩ : String)) <$> pyFormatAux path.data project.data template.data

/-- The platform-dependent `os.path` primitives used by the plugin.  The
host editor runs on linux, osx or windows, and Python's `os.path` resolves
to the platform module (`posixpath` / `ntpath`); theorems therefore
quantify over the instance. -/
structure OsPath where
  splitdrive : String → String × String
  relpath : String → String → String
  basename : String → String

/-- `posixpath.splitdrive`: posix paths have no drive. -/
def posixSplitdrive (p : String) : String × String := ("", p)

/-- `posixpath.basename(p) = p[p.rfind(sep) + 1:]`: everything after the
last slash. -/
def posixBasename (p : String) : String :=
  ⟨(p.data.reverse.takeWhile fun c => c ≠ '/').reverse⟩

/-- `posixpath.relpath` for absolute arguments: split both paths into
components, drop the common prefix, then prepend one `..` per remaining
`start` component. -/
def posixRelpath (path start : String) : String :=
  let ps := (path.splitOn "/").filter fun c => c ≠ ""
  let ss := (start.splitOn "/").filter fun c => c ≠ ""
  let i := commonLen ps ss
  let rel := List.replicate (ss.length - i) ".." ++ ps.drop i
  if rel = [] then "." else String.intercalate "/" rel
where
  commonLen : List String → List String → Nat
    | a :: as, b :: bs => if a = b then commonLen as bs + 1 else 0
    | _, _ => 0

/-- `os.path` on posix platforms (linux, osx). -/
def posixPath : OsPath :=
  { splitdrive := posixSplitdrive, relpath := posixRelpath,
    basename := posixBasename }

/-- `ntpath.splitdrive` restricted to the drive-letter form `X:...`
(the UNC-share form is omitted; theorems about `splitdrive` quantify over
the `OsPath` instance, this executable instance only feeds witnesses). -/
def ntSplitdrive (p : String) : String × String :=
  match p.data with
  | a :: ':' :: rest => (⟨[a, ':']⟩, ⟨rest⟩)
  | _ => ("", p)

/-- The pattern `"{%s}" % condition` built by `_replace_condition`. -/
def condPattern (condition : String) : String :=
  "\x7b" ++ condition ++ "\x7d"

/-- `SetWindowTitle._replace_condition` (src lines 192-197): pick the
configured `<condition>_true` / `<condition>_false` text by the truthiness
of `value` and substitute it for the literal token `{<condition>}`. -/
def replaceCondition (template condition : String) (value : Bool)
    (trueText falseText : String) : String :=
  pyReplace template (condPattern condition)
    (if value then trueText else falseText)

/-- The recognised settings of `set_window_title.sublime-settings`, as read
by `get_new_title` / `_get_displayed_path` (each field a present string or,
for `path_display`, an optional one; `debug` is not modelled as it only
gates log output). -/
structure Settings where
  template : String
  hasProjectTrue : String
  hasProjectFalse : String
  isDirtyTrue : String
  isDirtyFalse : String
  pathDisplay : Option String
  untitled : String

/-- A Sublime `View` as queried by the plugin: `view.name()` (empty when
unset), `view.file_name()` (`None` or a path), `view.is_dirty()`, and the
folders of `view.window()` (`none` when the view has no window, otherwise
the window's folder list). -/
structure View where
  name : String
  fileName : Option String
  isDirty : Bool
  folders : Option (List String)

/-- The home-prefix substitution applied when `path_display` is `full` or
`shortest` (src lines 175-177): if `HOME` is set, nonempty and a prefix of
the path, replace it by `~`. -/
def fullCandidate (fp : String) (home : Option String) : String :=
  match home with
  | some h =>
    if h ≠ "" ∧ h.data.isPrefixOf fp.data then "~" ++ fp.drop h.length else fp
  | none => fp

/-- The relative-path candidate computed when `path_display` is `relative`
or `shortest` (src lines 180-183): relative to the window's first folder,
but only when that folder exists, is truthy, and shares the path's drive;
otherwise the (possibly home-substituted) path unchanged. -/
def relCandidate (ops : OsPath) (fp : String) (folders : Option (List String)) :
    String :=
  let root := match folders with
    | some (r :: _) => some r
    | _ => none
  match root with
  | some r =>
    if r ≠ "" ∧ (ops.splitdrive fp).1 = (ops.splitdrive r).1 then
      ops.relpath fp r
    else fp
  | none => fp

/-- `SetWindowTitle._get_displayed_path` (src lines 163-190).  The final
`else` branch reads `rel_path`, which Python only assigned when
`path_display` was `relative` or `shortest`; reading it otherwise raises
`UnboundLocalError`, modelled as `none`. -/
def getDisplayedPath (ops : OsPath) (view : View) (home : Option String)
    (settings : Settings) : Option String :=
  if view.name ≠ "" then some view.name
  else
    match view.fileName with
    | none => some settings.untitled
    | some fp =>
      let display := settings.pathDisplay
      let fullPath :=
        if display = some "full" ∨ display = some "shortest" then
          fullCandidate fp home
        else fp
      let relPath : Option String :=
        if display = some "relative" ∨ display = some "shortest" then
          some (relCandidate ops fullPath view.folders)
        else none
      if display = some "full" then some fullPath
      else if display = some "relative" then relPath
      else
        match relPath with
        | some rp => some (if fullPath.length ≤ rp.length then fullPath else rp)
        | none => none

/-- `view.name() or view.file_name() or "untitled"` (src line 137), with
Python's falsy-chaining `or`. -/
def viewTitleName (view : View) : String :=
  if view.name ≠ "" then view.name
  else
    match view.fileName with
    | some f => if f ≠ "" then f else "untitled"
    | none => "untitled"

/-- `SetWindowTitle.get_official_title` (src lines 131-144).  `project` is
the string computed by `get_project` (Python `None` is modelled as the
equally falsy `""`). -/
def getOfficialTitle (ops : OsPath) (view : View) (project : String) : String :=
  let officialTitle := ops.basename (viewTitleName view)
  let officialTitle :=
    if view.isDirty then officialTitle ++ " •" else officialTitle
  let officialTitle :=
    if project ≠ "" then officialTitle ++ " (" ++ project ++ ")"
    else officialTitle
  officialTitle ++ " - Sublime Text"

/-- The template-processing part of `SetWindowTitle.get_new_title`
(src lines 155-161): substitute the two conditional tokens, then run
`str.format` with the `path` and `project` fields. -/
def renderTemplate (settings : Settings) (path project : String)
    (isDirty : Bool) : Option String :=
  let template := settings.template
  let template :=
    replaceCondition template "has_project" (project ≠ "")
      settings.hasProjectTrue settings.hasProjectFalse
  let template :=
    replaceCondition template "is_dirty" isDirty
      settings.isDirtyTrue settings.isDirtyFalse
  pyFormat template path project

/-- `SetWindowTitle.get_new_title` (src lines 146-161): compute the
displayed path, then render the template (an `UnboundLocalError` escaping
`_get_displayed_path` propagates). -/
def getNewTitle (ops : OsPath) (view : View) (home : Option String)
    (project : String) (settings : Settings) : Option String :=
  (getDisplayedPath ops view home settings).bind fun path =>
    renderTemplate settings path project view.isDirty

/-- The mutable listener state of `SetWindowTitle`: the `ready` flag and
the per-view `set_window_title_was_dirty` setting (an association list from
view id to the stored boolean; a missing entry is Python's `None`
default). -/
structure PState where
  ready : Bool
  wasDirty : List (Nat × Bool)

/-- The listener state at plugin construction (src lines 72-77): not ready,
no `was_dirty` entry stored on any view. -/
def initialPState : PState := { ready := false, wasDirty := [] }

/-- `view.settings().get(WAS_DIRTY, None)` for the view with id `vid`. -/
def getWasDirty (st : PState) (vid : Nat) : Option Bool :=
  (st.wasDirty.find? fun e => e.1 = vid).map Prod.snd

/-- `view.settings().set(WAS_DIRTY, b)` for the view with id `vid`. -/
def setWasDirty (st : PState) (vid : Nat) (b : Bool) : PState :=
  { st with wasDirty := (vid, b) :: st.wasDirty.filter fun e => e.1 ≠ vid }

/-- The view data consumed by the readiness gate of `run`: the view id
(keying its settings) and its dirty flag. -/
structure RunView where
  id : Nat
  isDirty : Bool

/-- `SetWindowTitle.run` (src lines 103-113), projected onto the listener
state and the observable effects the readiness claims are about: the
returned pair counts the diagnostic log lines printed and the
`rename_window` invocations performed.  When not ready, the single
not-ready notice is printed and nothing else happens; when ready, the
titles are computed (modelled by `getOfficialTitle` / `getNewTitle`, which
do not touch the listener state), `rename_window` is invoked once and the
view's `WAS_DIRTY` setting is updated. -/
def run (st : PState) (v : RunView) : PState × Nat × Nat :=
  if !st.ready then (st, 1, 0)
  else (setWasDirty st v.id v.isDirty, 0, 1)

/-- The host events the listener reacts to: `on_activated_async`,
`on_modified_async`, `on_post_save_async`, and the deferred
`on_sublime_started` callback (carrying the active views of the open
windows, which `on_sublime_started` re-runs after flipping `ready`). -/
inductive Ev where
  | activated (v : RunView)
  | modified (v : RunView)
  | postSave (v : RunView)
  | started (vs : List RunView)

/-- An event fired by the host editor's dispatcher (everything except the
one-shot `on_sublime_started` callback). -/
def Ev.isUserEvent : Ev → Bool
  | .activated _ => true
  | .modified _ => true
  | .postSave _ => true
  | .started _ => false

/-- Runs `run` on each view in turn, accumulating log and rename counts
(the loop at src lines 90-91). -/
def runAll (st : PState) (vs : List RunView) : PState × Nat × Nat :=
  match vs with
  | [] => (st, 0, 0)
  | v :: rest =>
    let r := run st v
    let r2 := runAll r.1 rest
    (r2.1, r.2.1 + r2.2.1, r.2.2 + r2.2.2)

/-- One host event dispatched to the listener (src lines 79-101):
`on_modified_async` guards `run` behind a dirty-transition check,
`on_sublime_started` sets `ready` and re-runs the open windows' active
views; the other callbacks forward to `run` directly. -/
def handleEvent (st : PState) : Ev → PState × Nat × Nat
  | .activated v => run st v
  | .modified v =>
    if getWasDirty st v.id ≠ some v.isDirty then run st v else (st, 0, 0)
  | .postSave v => run st v
  | .started vs => runAll { st with ready := true } vs

/-- Dispatches a sequence of events, summing the log and rename counts. -/
def handleEvents (st : PState) : List Ev → PState × Nat × Nat
  | [] => (st, 0, 0)
  | e :: rest =>
    let r := handleEvent st e
    let r2 := handleEvents r.1 rest
    (r2.1, r.2.1 + r2.2.1, r.2.2 + r2.2.2)

/-- A native top-level window for the enumeration variant: an opaque handle
and its current title text. -/
structure NativeWindow where
  handle : Nat
  title : String

/-- The state touched by the Windows branch of `rename_window`: the
listener's `window_handle_cache` (an association list from Sublime window
id to native handle) and the OS's top-level windows. -/
structure RenameState where
  cache : List (Nat × Nat)
  windows : List NativeWindow

/-- `self.window_handle_cache.get(window.id(), None)`. -/
def cacheLookup (st : RenameState) (wid : Nat) : Option Nat :=
  (st.cache.find? fun e => e.1 = wid).map Prod.snd

/-- The Windows branch of `SetWindowTitle.rename_window` (src lines
210-218).  On a cache miss it enumerates `Window.all()` and overwrites the
title of every window whose title contains `official_title` (the loop has
no `break`, and the line storing the resolved handle in
`window_handle_cache` is commented out in the source); on a cache hit it
overwrites the cached handle's title unconditionally.  The boolean records
whether this call enumerated the native windows. -/
def renameWindowWin (st : RenameState) (wid : Nat)
    (officialTitle newTitle : String) : RenameState × Bool :=
  match cacheLookup st wid with
  | none =>
    ({ st with
        windows := st.windows.map fun w =>
          if pyContains w.title officialTitle then
            { w with title := newTitle }
          else w },
      true)
  | some h =>
    ({ st with
        windows := st.windows.map fun w =>
          if w.handle = h then { w with title := newTitle } else w },
      false)

/-- UTF-16 code units of one character (Python scalar values below
`0x10000` are one unit, the rest a surrogate pair). -/
def utf16EncodeChar (c : Char) : List Nat :=
  let n := c.toNat
  if n < 0x10000 then [n]
  else [0xD800 + (n - 0x10000) / 0x400, 0xDC00 + (n - 0x10000) % 0x400]

/-- UTF-16 code units of a string. -/
def utf16Encode (s : String) : List Nat := s.data.flatMap utf16EncodeChar

/-- Decodes a list of UTF-16 code units (already grouped little-endian by
the byte cast in `Window.title`); a lone or inverted surrogate is a
`UnicodeDecodeError`, modelled as `none`. -/
def utf16DecodeLE : List Nat → Option (List Char)
  | [] => some []
  | u :: rest =>
    if u < 0xD800 ∨ (0xE000 ≤ u ∧ u < 0x10000) then
      (fun t => Char.ofNat u :: t) <$> utf16DecodeLE rest
    else if 0xD800 ≤ u ∧ u < 0xDC00 then
      match rest with
      | u2 :: rest2 =>
        if 0xDC00 ≤ u2 ∧ u2 < 0xE000 then
          (fun t => Char.ofNat (0x10000 + (u - 0xD800) * 0x400 + (u2 - 0xDC00)) :: t)
            <$> utf16DecodeLE rest2
        else none
      | [] => none
    else none

/-- Python `title.encode('utf16')` viewed as 16-bit code units: the codec
without an explicit byte order emits a little-endian BOM first. -/
def pyEncodeUtf16 (title : String) : List Nat :=
  0xFEFF :: utf16Encode title

/-- Python `bytes.decode('utf16')` viewed as 16-bit code units: a leading
BOM is consumed and selects the byte order (`0xFFFE` means each unit's
bytes are swapped); without a BOM the data is decoded as-is
(little-endian, the native order). -/
def pyDecodeUtf16 : List Nat → Option String
  | [] => some ""
  | u :: rest =>
    if u = 0xFEFF then (fun l => (⟨l⟩ : String)) <$> utf16DecodeLE rest
    else if u = 0xFFFE then
      (fun l => (⟨l⟩ : String)) <$>
        utf16DecodeLE (rest.map fun x => x % 0x100 * 0x100 + x / 0x100)
    else (fun l => (⟨l⟩ : String)) <$> utf16DecodeLE (u :: rest)

/-- The `Window.title` setter (src lines 41-46): `title.encode('utf16')`
produces the BOM-prefixed code units, the buffer is padded with trailing
zero bytes, and `SetWindowTextW` stores the NUL-terminated wide string —
i.e. the units up to the first zero. -/
def windowSetTitle (title : String) : List Nat :=
  (pyEncodeUtf16 title).takeWhile fun u => u ≠ 0

/-- The `Window.title` getter (src lines 31-39): `GetWindowTextW` yields
the stored code units, which the byte cast plus `.decode('utf16')`
interprets little-endian with BOM handling. -/
def windowGetTitle (stored : List Nat) : Option String :=
  pyDecodeUtf16 stored

/-- The project/editor suffix of the official title — the part after the
optional dirty marker, independent of the dirty flag. -/
def titleTail (project : String) : String :=
  (if project ≠ "" then " (" ++ project ++ ")" else "") ++ " - Sublime Text"

/-- Executable `OsPath` instance with Windows drive-letter splitting, used
to evaluate theorems whose hypotheses need two distinct drives (`relpath`
and `basename` play no role in those theorems and reuse the posix
ones). -/
def ntLikePath : OsPath :=
  { splitdrive := ntSplitdrive, relpath := posixRelpath,
    basename := posixBasename }

/-- A character list without brace characters: such a template fragment is
inert for both the conditional-token substitution and `str.format`. -/
def BraceFree (l : List Char) : Prop := ∀ c ∈ l, c ≠ '{' ∧ c ≠ '}'

/-- C5: For every document and project name, the official title equals
basename(document name, or else document file path, or else "untitled"),
followed by the dirty marker " •" exactly when the document is dirty,
followed by " (<project>)" exactly when the project name is non-empty,
followed by the fixed suffix " - Sublime Text". -/
theorem officialTitle_structure (ops : OsPath) (view : View) (project : String) :
    getOfficialTitle ops view project =
      ops.basename (viewTitleName view)
        ++ (if view.isDirty then " •" else "")
        ++ (if project ≠ "" then " (" ++ project ++ ")" else "")
        ++ " - Sublime Text" := by
  unfold getOfficialTitle
  by_cases hd : view.isDirty <;> by_cases hp : project = "" <;>
    simp [hd, hp, ← String.append_assoc]

/-- C9: Recomputing the official title with only the dirty flag toggled
changes exactly the presence of the " •" marker: the basename part, the
project part and the editor-name suffix are identical in both
computations. -/
theorem officialTitle_dirty_frame (ops : OsPath) (view : View) (project : String) :
    getOfficialTitle ops { view with isDirty := true } project
      = ops.basename (viewTitleName view) ++ " •" ++ titleTail project
    ∧ getOfficialTitle ops { view with isDirty := false } project
      = ops.basename (viewTitleName view) ++ titleTail project := by
  constructor <;> unfold getOfficialTitle titleTail viewTitleName <;>
    by_cases hp : project = "" <;> simp [hp, ← String.append_assoc]

/-- C4: For every view with no name and a file path, path resolution in
mode "shortest" returns a string no longer than either the full-path or
the relative-path candidate, and on a length tie returns the full-path
candidate. -/
theorem shortestPath_min (ops : OsPath) (view : View) (p : String)
    (home : Option String) (s : Settings)
    (hn : view.name = "") (hf : view.fileName = some p)
    (hd : s.pathDisplay = some "shortest") :
    ∃ r, getDisplayedPath ops view home s = some r
      ∧ r.length ≤ (fullCandidate p home).length
      ∧ r.length ≤ (relCandidate ops (fullCandidate p home) view.folders).length
      ∧ ((fullCandidate p home).length
            = (relCandidate ops (fullCandidate p home) view.folders).length
          → r = fullCandidate p home) := by
  have hres : getDisplayedPath ops view home s
      = some (if (fullCandidate p home).length
                ≤ (relCandidate ops (fullCandidate p home) view.folders).length
              then fullCandidate p home
              else relCandidate ops (fullCandidate p home) view.folders) := by
    simp [getDisplayedPath, hn, hf, hd]
  refine ⟨_, hres, ?_, ?_, ?_⟩ <;>
    by_cases hle : (fullCandidate p home).length
        ≤ (relCandidate ops (fullCandidate p home) view.folders).length <;>
      simp [hle] <;> omega

/-- Witness for C4 at a concrete posix input. -/
theorem shortestPath_min_witness :
    ∃ r, getDisplayedPath posixPath
        ⟨"", some "/home/u/proj/f.txt", false, some ["/home/u/proj"]⟩
        (some "/home/u")
        ⟨"{path}", "", "", "", "", some "shortest", "untitled"⟩ = some r
      ∧ r.length ≤ (fullCandidate "/home/u/proj/f.txt" (some "/home/u")).length
      ∧ r.length ≤ (relCandidate posixPath
            (fullCandidate "/home/u/proj/f.txt" (some "/home/u"))
            (some ["/home/u/proj"])).length
      ∧ ((fullCandidate "/home/u/proj/f.txt" (some "/home/u")).length
            = (relCandidate posixPath
                (fullCandidate "/home/u/proj/f.txt" (some "/home/u"))
                (some ["/home/u/proj"])).length
          → r = fullCandidate "/home/u/proj/f.txt" (some "/home/u")) :=
  shortestPath_min posixPath
    ⟨"", some "/home/u/proj/f.txt", false, some ["/home/u/proj"]⟩
    "/home/u/proj/f.txt" (some "/home/u")
    ⟨"{path}", "", "", "", "", some "shortest", "untitled"⟩ rfl rfl rfl

/-- Counterexample to C6 as stated: with the empty home directory `""`
(a prefix of every path), mode "full" returns the path unchanged — the
`if home and ...` guard in the source rejects a falsy home — instead of
the claimed `"~" + p[len(h):]`. -/
theorem fullPath_home_counterexample :
    ("" : String).data.isPrefixOf ("/a" : String).data = true
    ∧ getDisplayedPath posixPath ⟨"", some "/a", false, none⟩ (some "")
        ⟨"{path}", "", "", "", "", some "full", "untitled"⟩
      ≠ some ("~" ++ ("/a" : String).drop ("" : String).length) := by
  constructor
  · decide
  · decide

/-- C6 (amended): for every file path `p` and nonempty home directory `h`
with `p` starting with `h`, path resolution in mode "full" returns
`"~"` concatenated with `p` minus its first `len(h)` characters. -/
theorem fullPath_home_prefix (ops : OsPath) (view : View) (p h : String)
    (s : Settings) (hn : view.name = "") (hf : view.fileName = some p)
    (hh : h ≠ "") (hpre : h.data.isPrefixOf p.data = true)
    (hd : s.pathDisplay = some "full") :
    getDisplayedPath ops view (some h) s = some ("~" ++ p.drop h.length) := by
  simp [getDisplayedPath, fullCandidate, hn, hf, hd, hh, hpre]

/-- Witness for C6 (amended) at a concrete posix input. -/
theorem fullPath_home_prefix_witness :
    getDisplayedPath posixPath ⟨"", some "/home/u/f.txt", false, none⟩
        (some "/home/u")
        ⟨"{path}", "", "", "", "", some "full", "untitled"⟩
      = some ("~" ++ ("/home/u/f.txt" : String).drop ("/home/u" : String).length) :=
  fullPath_home_prefix posixPath ⟨"", some "/home/u/f.txt", false, none⟩
    "/home/u/f.txt" "/home/u"
    ⟨"{path}", "", "", "", "", some "full", "untitled"⟩
    rfl rfl (by decide) (by decide) rfl

/-- C7: for every file path `p` and a first open folder whose drive (as
split by the platform's `os.path.splitdrive`) differs from `p`'s, path
resolution in mode "relative" returns `p` unchanged. -/
theorem relativePath_drive_mismatch (ops : OsPath) (view : View) (p root : String)
    (rest : List String) (home : Option String) (s : Settings)
    (hn : view.name = "") (hf : view.fileName = some p)
    (hfold : view.folders = some (root :: rest))
    (hd : s.pathDisplay = some "relative")
    (hdrive : (ops.splitdrive p).1 ≠ (ops.splitdrive root).1) :
    getDisplayedPath ops view home s = some p := by
  simp [getDisplayedPath, relCandidate, hn, hf, hfold, hd, hdrive]

/-- Witness for C7: two distinct Windows drive letters. -/
theorem relativePath_drive_mismatch_witness :
    getDisplayedPath ntLikePath ⟨"", some "C:/x/f.txt", false, some ["D:/w"]⟩
        none ⟨"{path}", "", "", "", "", some "relative", "untitled"⟩
      = some "C:/x/f.txt" :=
  relativePath_drive_mismatch ntLikePath
    ⟨"", some "C:/x/f.txt", false, some ["D:/w"]⟩ "C:/x/f.txt" "D:/w" []
    none ⟨"{path}", "", "", "", "", some "relative", "untitled"⟩
    rfl rfl rfl rfl (by decide)

/-- C10: with no view name and a present file path, a `path_display`
setting outside the recognised set (including an absent one) drives the
final branch of `_get_displayed_path` into reading the never-assigned
`rel_path`, so the computation fails (`UnboundLocalError`, modelled
`none`) rather than returning a string; for the three recognised modes a
string is returned. -/
theorem displayedPath_unrecognized (ops : OsPath) (view : View) (p : String)
    (home : Option String) (s : Settings)
    (hn : view.name = "") (hf : view.fileName = some p) :
    (s.pathDisplay ≠ some "full" → s.pathDisplay ≠ some "relative" →
      s.pathDisplay ≠ some "shortest" →
        getDisplayedPath ops view home s = none)
    ∧ (s.pathDisplay = some "full" ∨ s.pathDisplay = some "relative"
        ∨ s.pathDisplay = some "shortest" →
        ∃ r, getDisplayedPath ops view home s = some r) := by
  constructor
  · intro h1 h2 h3
    simp [getDisplayedPath, hn, hf, h1, h2, h3]
  · rintro (hd | hd | hd)
    · exact ⟨fullCandidate p home, by simp [getDisplayedPath, hn, hf, hd]⟩
    · exact ⟨relCandidate ops p view.folders, by simp [getDisplayedPath, hn, hf, hd]⟩
    · exact ⟨if (fullCandidate p home).length
            ≤ (relCandidate ops (fullCandidate p home) view.folders).length
          then fullCandidate p home
          else relCandidate ops (fullCandidate p home) view.folders,
        by simp [getDisplayedPath, hn, hf, hd]⟩

/-- Witness for C10: an unrecognised mode string fails, a recognised one
succeeds. -/
theorem displayedPath_unrecognized_witness :
    getDisplayedPath posixPath ⟨"", some "/a/b", false, none⟩ none
        ⟨"{path}", "", "", "", "", some "bogus", "untitled"⟩ = none
    ∧ ∃ r, getDisplayedPath posixPath ⟨"", some "/a/b", false, none⟩ none
        ⟨"{path}", "", "", "", "", some "full", "untitled"⟩ = some r :=
  ⟨(displayedPath_unrecognized posixPath ⟨"", some "/a/b", false, none⟩ "/a/b"
      none ⟨"{path}", "", "", "", "", some "bogus", "untitled"⟩ rfl rfl).1
        (by decide) (by decide) (by decide),
    (displayedPath_unrecognized posixPath ⟨"", some "/a/b", false, none⟩ "/a/b"
      none ⟨"{path}", "", "", "", "", some "full", "untitled"⟩ rfl rfl).2
        (Or.inl rfl)⟩

/-- Counterexample to C2 as stated: the first rename call for window id 7
resolves the matching window by enumeration, yet the cache stays empty and
the second call for the same window id enumerates again (the source line
that would store the handle is commented out). -/
theorem renameWindow_cache_counterexample :
    (renameWindowWin ⟨[], [⟨1, "f.txt - Sublime Text"⟩]⟩ 7 "f.txt" "new").2
        = true
    ∧ ((renameWindowWin ⟨[], [⟨1, "f.txt - Sublime Text"⟩]⟩ 7 "f.txt" "new").1).cache
        = []
    ∧ (renameWindowWin
        (renameWindowWin ⟨[], [⟨1, "f.txt - Sublime Text"⟩]⟩ 7 "f.txt" "new").1
        7 "f.txt" "new2").2 = true := by
  refine ⟨rfl, rfl, rfl⟩

/-- C2 (amended): the Windows variant never writes the window-handle
cache — a rename call leaves the cache unchanged, so a call whose window
identity is not cached (in particular, every call starting from the empty
initial cache) enumerates the native windows. -/
theorem renameWindow_never_caches (st : RenameState) (wid : Nat)
    (officialTitle newTitle : String) :
    ((renameWindowWin st wid officialTitle newTitle).1).cache = st.cache
    ∧ (cacheLookup st wid = none →
        (renameWindowWin st wid officialTitle newTitle).2 = true) := by
  unfold renameWindowWin
  cases h : cacheLookup st wid <;> simp [h]

/-- Witness for C2 (amended) at a concrete state with an empty cache. -/
theorem renameWindow_never_caches_witness :
    ((renameWindowWin ⟨[], [⟨1, "t"⟩]⟩ 7 "t" "n").1).cache = []
    ∧ (renameWindowWin ⟨[], [⟨1, "t"⟩]⟩ 7 "t" "n").2 = true :=
  ⟨(renameWindow_never_caches ⟨[], [⟨1, "t"⟩]⟩ 7 "t" "n").1,
    (renameWindow_never_caches ⟨[], [⟨1, "t"⟩]⟩ 7 "t" "n").2 rfl⟩

/-- `run` never changes the `ready` flag. -/
theorem run_ready (st : PState) (v : RunView) : ((run st v).1).ready = st.ready := by
  unfold run
  cases h : st.ready <;> simp [h, setWasDirty]

/-- `runAll` never changes the `ready` flag. -/
theorem runAll_ready (st : PState) (vs : List RunView) :
    ((runAll st vs).1).ready = st.ready := by
  induction vs generalizing st with
  | nil => rfl
  | cons v rest ih => rw [runAll]; simpa [run_ready] using ih (run st v).1

/-- A not-ready listener with no stored `WAS_DIRTY` entries handles any
user event by printing one notice and doing nothing else. -/
theorem handleEvent_notReady (st : PState) (e : Ev) (hr : st.ready = false)
    (hw : st.wasDirty = []) (hu : e.isUserEvent = true) :
    handleEvent st e = (st, 1, 0) := by
  cases e with
  | activated v => simp [handleEvent, run, hr]
  | modified v => simp [handleEvent, getWasDirty, hw, run, hr]
  | postSave v => simp [handleEvent, run, hr]
  | started vs => simp [Ev.isUserEvent] at hu

/-- C3: for every sequence of activate/modify/save events dispatched from
the initial (not-ready) state, each event emits exactly one log line and
performs no rename, leaving the state unchanged; and once the `ready` flag
is true, no event handler ever resets it. -/
theorem readiness_gate (evs : List Ev) (hu : ∀ e ∈ evs, e.isUserEvent = true) :
    handleEvents initialPState evs = (initialPState, evs.length, 0)
    ∧ ∀ (st : PState) (e : Ev), st.ready = true →
        ((handleEvent st e).1).ready = true := by
  constructor
  · induction evs with
    | nil => rfl
    | cons e rest ih =>
      rw [handleEvents]
      rw [handleEvent_notReady initialPState e rfl rfl (hu e (by simp))]
      have ih2 := ih fun x hx => hu x (by simp [hx])
      simp [ih2]
      omega
  · intro st e hst
    cases e with
    | activated v => simpa [handleEvent, run_ready] using hst
    | modified v =>
      by_cases h : getWasDirty st v.id ≠ some v.isDirty <;>
        simp [handleEvent, h, run_ready, hst]
    | postSave v => simpa [handleEvent, run_ready] using hst
    | started vs => simp [handleEvent, runAll_ready]

/-- Witness for C3: three user events from the initial state yield three
log lines and zero renames; monotonicity applied at a ready state. -/
theorem readiness_gate_witness :
    (∀ e ∈ [Ev.activated ⟨1, false⟩, Ev.modified ⟨1, true⟩, Ev.postSave ⟨1, false⟩],
        e.isUserEvent = true)
    ∧ handleEvents initialPState
        [Ev.activated ⟨1, false⟩, Ev.modified ⟨1, true⟩, Ev.postSave ⟨1, false⟩]
      = (initialPState, 3, 0)
    ∧ ((handleEvent ⟨true, []⟩ (Ev.activated ⟨1, false⟩)).1).ready = true :=
  ⟨by decide,
    (readiness_gate _ (by decide)).1,
    (readiness_gate [] (by decide)).2 ⟨true, []⟩ (Ev.activated ⟨1, false⟩) rfl⟩

/-- Every character's scalar value is outside the surrogate range and
below `0x110000`. -/
theorem char_valid_nat (c : Char) :
    c.toNat < 0xD800 ∨ (0xDFFF < c.toNat ∧ c.toNat < 0x110000) := by
  have h := c.valid
  simp [UInt32.isValidChar, Nat.isValidChar] at h
  exact h

/-- Decoding the UTF-16 units of one character prepends that character. -/
theorem utf16DecodeLE_encodeChar (c : Char) (rest : List Nat) :
    utf16DecodeLE (utf16EncodeChar c ++ rest)
      = (fun t => c :: t) <$> utf16DecodeLE rest := by
  have hv := char_valid_nat c
  unfold utf16EncodeChar
  by_cases h : c.toNat < 0x10000
  · rw [if_pos h]
    simp only [List.cons_append, List.nil_append]
    rw [utf16DecodeLE.eq_def]
    dsimp only
    rw [if_pos (show c.toNat < 0xD800 ∨ (0xE000 ≤ c.toNat ∧ c.toNat < 0x10000) by
      omega)]
    rw [Char.ofNat_toNat]
  · rw [if_neg h]
    simp only [List.cons_append, List.nil_append]
    rw [utf16DecodeLE.eq_def]
    dsimp only
    rw [if_neg (show ¬(0xD800 + (c.toNat - 0x10000) / 0x400 < 0xD800
        ∨ (0xE000 ≤ 0xD800 + (c.toNat - 0x10000) / 0x400
            ∧ 0xD800 + (c.toNat - 0x10000) / 0x400 < 0x10000)) by omega)]
    rw [if_pos (show 0xD800 ≤ 0xD800 + (c.toNat - 0x10000) / 0x400
        ∧ 0xD800 + (c.toNat - 0x10000) / 0x400 < 0xDC00 by constructor <;> omega)]
    rw [if_pos (show 0xDC00 ≤ 0xDC00 + (c.toNat - 0x10000) % 0x400
        ∧ 0xDC00 + (c.toNat - 0x10000) % 0x400 < 0xE000 by constructor <;> omega)]
    have harg : 0x10000 + (0xD800 + (c.toNat - 0x10000) / 0x400 - 0xD800) * 0x400
        + (0xDC00 + (c.toNat - 0x10000) % 0x400 - 0xDC00) = c.toNat := by omega
    rw [harg, Char.ofNat_toNat]

/-- UTF-16 decoding inverts encoding. -/
theorem utf16DecodeLE_encode (l : List Char) :
    utf16DecodeLE (l.flatMap utf16EncodeChar) = some l := by
  induction l with
  | nil => rfl
  | cons c cs ih => rw [List.flatMap_cons, utf16DecodeLE_encodeChar, ih]; rfl

/-- The UTF-16 units of a non-NUL character are nonzero. -/
theorem utf16EncodeChar_ne_zero (c : Char) (hc : c.toNat ≠ 0) :
    ∀ u ∈ utf16EncodeChar c, u ≠ 0 := by
  intro u hu
  unfold utf16EncodeChar at hu
  by_cases h : c.toNat < 0x10000 <;> simp [h] at hu
  · omega
  · rcases hu with h1 | h1 <;> omega

/-- `takeWhile (· ≠ 0)` keeps a zero-free list intact. -/
theorem takeWhile_ne_zero (l : List Nat) (h : ∀ u ∈ l, u ≠ 0) :
    (l.takeWhile fun u => u ≠ 0) = l := by
  induction l with
  | nil => rfl
  | cons a rest ih =>
    rw [List.takeWhile_cons]
    have ha : a ≠ 0 := h a (by simp)
    have hr : ∀ u ∈ rest, u ≠ 0 := fun u hu => h u (by simp [hu])
    simp [ha]
    exact hr

/-- Counterexample to C8 as stated: a title containing a NUL character is
truncated at the NUL, because `SetWindowTextW` receives a NUL-terminated
wide string — the round trip returns `"a"` for the title `"a\x00b"`. -/
theorem titleRoundTrip_counterexample :
    windowGetTitle (windowSetTitle ⟨['a', '\x00', 'b']⟩)
      ≠ some (⟨['a', '\x00', 'b']⟩ : String) := by
  decide

/-- C8 (amended): on the handle-enumeration variant, for every title
string free of NUL characters (non-ASCII included), writing it through the
title setter and reading it back through the title getter yields the same
string, the native buffer being treated as 16-bit code units. -/
theorem titleRoundTrip (title : String) (h : ∀ c ∈ title.data, c.toNat ≠ 0) :
    windowGetTitle (windowSetTitle title) = some title := by
  unfold windowSetTitle windowGetTitle pyEncodeUtf16
  have henc : ∀ u ∈ utf16Encode title, u ≠ 0 := by
    intro u hu
    unfold utf16Encode at hu
    rcases List.mem_flatMap.1 hu with ⟨c, hc, hmem⟩
    exact utf16EncodeChar_ne_zero c (h c hc) u hmem
  have hall : ∀ u ∈ (0xFEFF : Nat) :: utf16Encode title, u ≠ 0 := by
    intro u hu
    rcases List.mem_cons.1 hu with h1 | h1
    · omega
    · exact henc u h1
  rw [takeWhile_ne_zero _ hall]
  rw [pyDecodeUtf16.eq_def]
  dsimp only
  rw [if_pos rfl]
  unfold utf16Encode
  rw [utf16DecodeLE_encode]
  rfl

/-- Witness for C8 (amended) on a title with an accented and an astral
character. -/
theorem titleRoundTrip_witness :
    (∀ c ∈ ("hé😀" : String).data, c.toNat ≠ 0)
    ∧ windowGetTitle (windowSetTitle "hé😀") = some "hé😀" :=
  ⟨by decide, titleRoundTrip "hé😀" (by decide)⟩

/-- The empty pattern occurs in every string. -/
theorem containsAux_nil (l : List Char) :
    pyContains.pyContainsAux [] l = true := by
  cases l <;> simp [pyContains.pyContainsAux, List.isPrefixOf]

/-- `str.replace` with a pattern that occurs nowhere is the identity
(list level). -/
theorem pyReplaceAux_no_match (p : Char) (ps rep : List Char) (l : List Char)
    (h : pyContains.pyContainsAux (p :: ps) l = false) :
    pyReplaceAux p ps rep l = l := by
  induction l with
  | nil => simp [pyReplaceAux]
  | cons c rest ih =>
    rw [pyContains.pyContainsAux] at h
    rw [Bool.or_eq_false_iff] at h
    rw [pyReplaceAux.eq_def]
    simp [h.1, ih h.2]

/-- `str.replace` with a pattern that occurs nowhere is the identity. -/
theorem pyReplace_no_match (s pat rep : String)
    (h : pyContains s pat = false) : pyReplace s pat rep = s := by
  unfold pyContains at h
  unfold pyReplace
  cases hp : pat.data with
  | nil =>
    rw [hp] at h
    rw [containsAux_nil] at h
    exact absurd h (by simp)
  | cons p ps =>
    rw [hp] at h
    simp only [hp]
    rw [pyReplaceAux_no_match p ps rep.data s.data h]

/-- A pattern starting with an opening brace cannot occur in a string with
no opening brace. -/
theorem containsAux_no_open (q : List Char) (l : List Char)
    (h : ∀ c ∈ l, c ≠ '{') :
    pyContains.pyContainsAux ('{' :: q) l = false := by
  induction l with
  | nil => rfl
  | cons c rest ih =>
    rw [pyContains.pyContainsAux]
    have hc : c ≠ '{' := h c (by simp)
    have h1 : ('{' :: q).isPrefixOf (c :: rest) = false := by
      simp [List.isPrefixOf]
      intro hh
      exact absurd hh.symm hc
    rw [h1, ih fun x hx => h x (by simp [hx])]
    rfl

/-- Two distinct close-brace-free words followed by a closing brace never
match as prefixes. -/
theorem prefix_mismatch (a b rest : List Char)
    (ha : ∀ c ∈ a, c ≠ '}') (hb : ∀ c ∈ b, c ≠ '}') (hne : a ≠ b) :
    (a ++ ['}']).isPrefixOf (b ++ '}' :: rest) = false := by
  induction a generalizing b with
  | nil =>
    cases b with
    | nil => exact absurd rfl hne
    | cons y b2 =>
      have hy : y ≠ '}' := hb y (by simp)
      simp [List.isPrefixOf]
      exact fun hh => hy hh.symm
  | cons x a2 ih =>
    cases b with
    | nil =>
      have hx : x ≠ '}' := ha x (by simp)
      simp [List.isPrefixOf, hx]
    | cons y b2 =>
      by_cases hxy : x = y
      · subst hxy
        have hne2 : a2 ≠ b2 := fun hh => hne (by rw [hh])
        have ha2 : ∀ c ∈ a2, c ≠ '}' := fun c hc => ha c (by simp [hc])
        have hb2 : ∀ c ∈ b2, c ≠ '}' := fun c hc => hb c (by simp [hc])
        have hres := ih b2 ha2 hb2 hne2
        simp only [List.cons_append, List.isPrefixOf]
        simp [hres]
      · simp only [List.cons_append, List.isPrefixOf]
        simp [hxy]

/-- A conditional token `{q}` does not occur in a template made of
brace-free text around a single brace pair holding a different
brace-free field name. -/
theorem containsAux_template (q pre f post : List Char)
    (hq : ∀ c ∈ q, c ≠ '}')
    (hpre : ∀ c ∈ pre, c ≠ '{') (hf : BraceFree f)
    (hpost : ∀ c ∈ post, c ≠ '{') (hne : q ≠ f) :
    pyContains.pyContainsAux ('{' :: (q ++ ['}']))
      (pre ++ '{' :: (f ++ '}' :: post)) = false := by
  induction pre with
  | nil =>
    rw [List.nil_append, pyContains.pyContainsAux]
    have h1 : ('{' :: (q ++ ['}'])).isPrefixOf ('{' :: (f ++ '}' :: post))
        = false := by
      simp only [List.isPrefixOf]
      rw [prefix_mismatch q f post hq (fun c hc => (hf c hc).2) hne]
      simp
    have h2 : pyContains.pyContainsAux ('{' :: (q ++ ['}'])) (f ++ '}' :: post)
        = false := by
      refine containsAux_no_open _ _ ?_
      intro c hc
      rcases List.mem_append.1 hc with h3 | h3
      · exact (hf c h3).1
      · rcases List.mem_cons.1 h3 with h4 | h4
        · simp [h4]
        · exact hpost c h4
    rw [h1, h2]
    rfl
  | cons c pre2 ih =>
    rw [List.cons_append, pyContains.pyContainsAux]
    have hc : c ≠ '{' := hpre c (by simp)
    have h1 : ('{' :: (q ++ ['}'])).isPrefixOf
        (c :: (pre2 ++ '{' :: (f ++ '}' :: post))) = false := by
      simp [List.isPrefixOf]
      intro hh
      exact absurd hh.symm hc
    rw [h1, ih fun x hx => hpre x (by simp [hx])]
    rfl

/-- Scanner step: an opening brace dispatches on the next character. -/
theorem pyFormatAux_open (path project : List Char) (c2 : Char)
    (rest2 : List Char) :
    pyFormatAux path project ('{' :: c2 :: rest2)
      = if c2 = '{' then (fun t => '{' :: t) <$> pyFormatAux path project rest2
        else pyFormatField path project [] (c2 :: rest2) := by
  rw [pyFormatAux.eq_def]
  dsimp only
  rw [if_pos rfl]

/-- Scanner step: a non-brace character is copied. -/
theorem pyFormatAux_other (path project : List Char) (c : Char)
    (rest : List Char) (h1 : c ≠ '{') (h2 : c ≠ '}') :
    pyFormatAux path project (c :: rest)
      = (fun t => c :: t) <$> pyFormatAux path project rest := by
  rw [pyFormatAux.eq_def]
  dsimp only
  rw [if_neg h1, if_neg h2]

/-- Field-scanner: a close-brace-free fragment is accumulated whole. -/
theorem pyFormatField_walk (path project acc f rest : List Char)
    (hf : ∀ c ∈ f, c ≠ '}') :
    pyFormatField path project acc (f ++ '}' :: rest)
      = pyFormatField path project (acc ++ f) ('}' :: rest) := by
  induction f generalizing acc with
  | nil => simp
  | cons c f2 ih =>
    have hc : c ≠ '}' := hf c (by simp)
    rw [List.cons_append, pyFormatField.eq_def]
    simp only [hc, if_false]
    rw [ih (acc ++ [c]) fun x hx => hf x (by simp [hx])]
    congr 1
    simp

/-- A field whose argument name is neither `path` nor `project` fails to
substitute (`KeyError`, or `IndexError` for the empty name), whatever
accessors, conversion or spec follow the name. -/
theorem pyFormatSubst_unknown_name (path project field : List Char)
    (hp : pyArgName field ≠ ("path" : String).data)
    (hpr : pyArgName field ≠ ("project" : String).data) :
    pyFormatSubst path project field = none := by
  unfold pyFormatSubst
  simp [hp, hpr]

/-- Field-scanner: a field whose argument name is unknown raises. -/
theorem pyFormatField_close_none (path project acc rest : List Char)
    (hp : pyArgName acc ≠ ("path" : String).data)
    (hpr : pyArgName acc ≠ ("project" : String).data) :
    pyFormatField path project acc ('}' :: rest) = none := by
  rw [pyFormatField.eq_def]
  simp [pyFormatSubst_unknown_name path project acc hp hpr]

/-- `str.format` fails on a template holding one replacement field with an
unknown argument name in otherwise brace-free text. -/
theorem pyFormatAux_unknown (path project pre f post : List Char)
    (hpre : BraceFree pre) (hf : BraceFree f)
    (hp : pyArgName f ≠ ("path" : String).data)
    (hpr : pyArgName f ≠ ("project" : String).data) :
    pyFormatAux path project (pre ++ '{' :: (f ++ '}' :: post)) = none := by
  induction pre with
  | nil =>
    rw [List.nil_append]
    cases f with
    | nil =>
      rw [List.nil_append, pyFormatAux_open]
      rw [if_neg (by decide)]
      exact pyFormatField_close_none path project [] post (by decide) (by decide)
    | cons c f2 =>
      rw [List.cons_append, pyFormatAux_open]
      have hc : c ≠ '{' := (hf c (by simp)).1
      rw [if_neg hc]
      have hshape : (c :: (f2 ++ '}' :: post)) = (c :: f2) ++ '}' :: post := by
        simp
      rw [hshape]
      rw [pyFormatField_walk path project [] (c :: f2) post
        fun x hx => (hf x hx).2]
      rw [List.nil_append]
      exact pyFormatField_close_none path project (c :: f2) post hp hpr
  | cons c pre2 ih =>
    rw [List.cons_append]
    rw [pyFormatAux_other path project c _ (hpre c (by simp)).1
      (hpre c (by simp)).2]
    rw [ih fun x hx => hpre x (by simp [hx])]
    rfl

/-- Counterexample to C1 as stated: the template `"{foo}"`, whose
placeholder is outside the recognised set, makes `format` raise `KeyError`
(modelled `none`) instead of passing `"{foo}"` through verbatim. -/
theorem renderTemplate_unknown_counterexample :
    renderTemplate ⟨"{foo}", "[", "]", "*", "", some "full", "untitled"⟩
      "p" "proj" true = none := by
  simp [renderTemplate, replaceCondition, pyReplace, pyReplaceAux, condPattern,
    pyFormat, pyFormatAux, pyFormatField, pyFormatSubst, pyArgName]

/-- C1 (amended): for every field assignment, rendering a template that
carries a placeholder outside the recognised set — brace-free text around
one brace pair whose field's argument name (the text before any `.`, `[`,
`!` or `:`) is neither `path` nor `project`, the field also differing from
the conditional tokens `has_project` / `is_dirty` — raises an error
(`KeyError`, or `IndexError` for an empty name) instead of leaving the
placeholder verbatim; rendering stays deterministic, being a pure function
of its inputs.  (Fields whose argument name is `path` / `project` are
substituted, conversions, specs and indexing included.) -/
theorem renderTemplate_unknown (pre f post path project : String)
    (hpT hpF dT dF u : String) (pd : Option String) (d : Bool)
    (hpre : BraceFree pre.data) (hf : BraceFree f.data)
    (hpost : BraceFree post.data)
    (h1 : pyArgName f.data ≠ ("path" : String).data)
    (h2 : pyArgName f.data ≠ ("project" : String).data)
    (h3 : f ≠ "has_project") (h4 : f ≠ "is_dirty") :
    renderTemplate ⟨pre ++ "\x7b" ++ f ++ "\x7d" ++ post, hpT, hpF, dT, dF, pd, u⟩
      path project d = none := by
  have hdata : (pre ++ "\x7b" ++ f ++ "\x7d" ++ post).data
      = pre.data ++ '{' :: (f.data ++ '}' :: post.data) := by
    simp [String.data_append]
  have hcont1 : pyContains (pre ++ "\x7b" ++ f ++ "\x7d" ++ post)
      (condPattern "has_project") = false := by
    unfold pyContains
    rw [hdata]
    exact containsAux_template ("has_project" : String).data pre.data f.data
      post.data (by decide) (fun c hc => (hpre c hc).1) hf
      (fun c hc => (hpost c hc).1)
      (fun hh => h3 (@String.ext f "has_project" hh.symm))
  have hcont2 : pyContains (pre ++ "\x7b" ++ f ++ "\x7d" ++ post)
      (condPattern "is_dirty") = false := by
    unfold pyContains
    rw [hdata]
    exact containsAux_template ("is_dirty" : String).data pre.data f.data
      post.data (by decide) (fun c hc => (hpre c hc).1) hf
      (fun c hc => (hpost c hc).1)
      (fun hh => h4 (@String.ext f "is_dirty" hh.symm))
  unfold renderTemplate replaceCondition
  dsimp only
  rw [pyReplace_no_match _ _ _ hcont1]
  rw [pyReplace_no_match _ _ _ hcont2]
  unfold pyFormat
  rw [hdata]
  rw [pyFormatAux_unknown path.data project.data pre.data f.data post.data hpre hf
    h1 h2]
  rfl

/-- Witness for C1 (amended) at a concrete template with an unknown
placeholder (carrying a conversion, to exhibit that the argument name is
what decides) between brace-free text. -/
theorem renderTemplate_unknown_witness :
    (BraceFree ("a " : String).data ∧ BraceFree ("foo!r" : String).data
      ∧ BraceFree (" b" : String).data
      ∧ pyArgName ("foo!r" : String).data ≠ ("path" : String).data)
    ∧ renderTemplate
        ⟨"a " ++ "\x7b" ++ "foo!r" ++ "\x7d" ++ " b", "[", "]", "*", "",
          some "full", "untitled"⟩ "p" "proj" true = none :=
  ⟨⟨by unfold BraceFree; decide, by unfold BraceFree; decide,
      by unfold BraceFree; decide, by decide⟩,
    renderTemplate_unknown "a " "foo!r" " b" "p" "proj" "[" "]" "*" "" "untitled"
      (some "full") true (by unfold BraceFree; decide)
      (by unfold BraceFree; decide) (by unfold BraceFree; decide) (by decide)
      (by decide) (by decide) (by decide)⟩
